import Mathlib

/-!
Verification development for the pygsheets range/address model
(`pygsheets/datarange.py`, `pygsheets/ranges.py`).

The Python code is shallowly embedded: each method that the checked
properties talk about becomes an executable Lean definition operating on
explicit state, with Python exceptions modelled by `Except PyErr`.
Python integers are modelled by `Int` (coordinates may be negative on
input), auxiliary digit lists by `Nat`.
-/

namespace PyG

/-- The exceptions from `pygsheets/exceptions.py` that the embedded code can
raise, plus the Python built-ins it can hit: `IndexError` (bare list
indexing) and `AttributeError` (attribute access on an object that lacks
it, e.g. `get_values` on a non-Worksheet). -/
inductive PyErr where
  | incorrectCellLabel
  | invalidArgumentValue
  | invalidRange
  | cellNotFound
  | noPermission
  | indexError
  | attributeError
  deriving DecidableEq, Repr

/-! ### Address._value_as_label: the bijective base-26 column encoding

The Python loop

    div = col
    while div:
        (div, mod) = divmod(div, 26)
        if mod == 0:
            mod = 26
            div -= 1
        column_label = chr(mod + 64) + column_label

produces the digits (1..26) of `col` in bijective base 26, least
significant digit first, each prepended to the front of the string.  We
model it as a function returning the digit list most-significant-first
(the order in which the characters end up in the label).  The loop
terminates because the quotient strictly decreases; `n` itself is more
than enough fuel, which keeps the definition structurally recursive and
hence kernel-computable. -/
def colDigitsAux : Nat → Nat → List Nat
  | 0, _ => []
  | _ + 1, 0 => []
  | fuel + 1, k + 1 =>
    (if (k + 1) % 26 = 0 then colDigitsAux fuel ((k + 1) / 26 - 1)
     else colDigitsAux fuel ((k + 1) / 26)) ++
    [if (k + 1) % 26 = 0 then 26 else (k + 1) % 26]

/-- Digits of the column label for column `n`, most significant first. -/
def colDigits (n : Nat) : List Nat := colDigitsAux n n

/-- Decimal digits of `str(row)` for `row ≥ 1`, most significant first
(Python's `str` of a positive int). -/
def decDigitsAux : Nat → Nat → List Nat
  | 0, _ => []
  | _ + 1, 0 => []
  | fuel + 1, k + 1 => decDigitsAux fuel ((k + 1) / 10) ++ [(k + 1) % 10]

def decDigits (n : Nat) : List Nat := decDigitsAux n n

/-- Value of a most-significant-first digit list in base `b`. -/
def digitsVal (b : Nat) : List Nat → Nat
  | [] => 0
  | d :: ds => d * b ^ ds.length + digitsVal b ds

/-- `chr(mod + 64)` for a bijective base-26 digit (`'A'`..`'Z'`). -/
def letterChar (m : Nat) : Char := Char.ofNat (64 + m)

/-- `chr(d + 48)` for a decimal digit (`'0'`..`'9'`). -/
def decChar (d : Nat) : Char := Char.ofNat (48 + d)

/-- The character class `[A-Za-z]` of the label regex. -/
def isAsciiAlpha (c : Char) : Bool :=
  (65 ≤ c.toNat && c.toNat ≤ 90) || (97 ≤ c.toNat && c.toNat ≤ 122)

/-- The character class `[0-9]`.  Python's `\d` on a `str` pattern also
matches non-ASCII Unicode decimal digits (and `int()` parses them), which
this embedding does not model; theorems that quantify over arbitrary
labels therefore restrict to ASCII strings, on which `\d` and `[0-9]`
coincide. -/
def isAsciiDigit (c : Char) : Bool :=
  48 ≤ c.toNat && c.toNat ≤ 57

/-- `ord(c.upper())` for an ASCII character. -/
def upperOrd (c : Char) : Nat :=
  if 97 ≤ c.toNat && c.toNat ≤ 122 then c.toNat - 32 else c.toNat

/-- `col += (ord(c) - 64) * 26**i` summed over the reversed (upper-cased)
column label, re-indexed most-significant-first. -/
def colFromLetters : List Char → Nat
  | [] => 0
  | c :: cs => (upperOrd c - 64) * 26 ^ cs.length + colFromLetters cs

/-- `int(m.group(2))`: decimal value of the digit run. -/
def rowFromDigits : List Char → Nat
  | [] => 0
  | c :: cs => (c.toNat - 48) * 10 ^ cs.length + rowFromDigits cs

/-- `Address._label_to_coordinates` (datarange.py lines 75-85).

`re.match(r'([A-Za-z]+)(\d+)', label)` anchors at the start only: group 1
is the maximal letter prefix, group 2 the maximal digit run following it,
and any trailing characters are ignored.  The match fails (and
`IncorrectCellLabel` is raised) exactly when one of the two groups would
be empty.  `\d` is modelled as `[0-9]` (see `isAsciiDigit`): the model is
exact on ASCII labels, and theorems over arbitrary labels carry that
restriction. -/
def labelToCoordList (cs : List Char) : Except PyErr (Int × Int) :=
  if cs.takeWhile isAsciiAlpha = [] ∨
      (cs.dropWhile isAsciiAlpha).takeWhile isAsciiDigit = [] then
    .error .incorrectCellLabel
  else
    .ok (Int.ofNat (rowFromDigits ((cs.dropWhile isAsciiAlpha).takeWhile isAsciiDigit)),
         Int.ofNat (colFromLetters (cs.takeWhile isAsciiAlpha)))

def labelToCoordinates (label : String) : Except PyErr (Int × Int) :=
  labelToCoordList label.toList

/-- `Address._value_as_label` (datarange.py lines 55-73): row guard, column
guard, then `'{}{}'.format(column_label, row_label)`. -/
def valueAsLabel (v : Int × Int) : Except PyErr String :=
  if v.1 < 1 then .error .invalidArgumentValue
  else if v.2 < 1 then .error .invalidArgumentValue
  else .ok (String.mk ((colDigits v.2.toNat).map letterChar ++
                       (decDigits v.1.toNat).map decChar))

/-- The input shapes of `Address.__init__`: a label string, a coordinate
tuple, an existing Address, or a value of any other type (such as a
Worksheet object reaching the constructor through the positional
`super().__init__` calls of `NamedRange` and `ProtectedRange`). -/
inductive AddrInput where
  | label (s : String)
  | coords (v : Int × Int)
  | addr (v : Int × Int)
  | other

/-- `Address.__init__` (datarange.py lines 38-49).  A string is parsed; a
tuple is range-checked (`value[0] < 1 or value[1] < 1`); an existing
Address is re-parsed from its rendered label (`value.label`); any other
value hits the final `else` and raises `IncorrectCellLabel`. -/
def addressInit : AddrInput → Except PyErr (Int × Int)
  | .label s => labelToCoordinates s
  | .coords v =>
    if v.1 < 1 ∨ v.2 < 1 then .error .invalidArgumentValue else .ok v
  | .addr v => (valueAsLabel v).bind labelToCoordinates
  | .other => .error .incorrectCellLabel

/-! ### Spec-side pattern predicates (for comparison with the source's
prefix-anchored `re.match`) -/

/-- The label has a prefix of the form `[A-Za-z]+[0-9]+`: a non-empty letter
block followed immediately by a non-empty digit block, with arbitrary
trailing characters.  This is what `re.match` (anchored at the start only)
accepts. -/
def matchesA1AtStart (cs : List Char) : Prop :=
  ∃ L D R, cs = L ++ (D ++ R) ∧ L ≠ [] ∧ D ≠ [] ∧
    (∀ c ∈ L, isAsciiAlpha c = true) ∧ (∀ c ∈ D, isAsciiDigit c = true)

/-- Modelled from the spec: the pattern `[A-Za-z]+[0-9]+` matched against the
WHOLE label (`^[A-Za-z]+[0-9]+$`), which is what the spec says the parser
requires. -/
def wholeA1 (cs : List Char) : Bool :=
  decide (cs.takeWhile isAsciiAlpha ≠ [] ∧
    (cs.dropWhile isAsciiAlpha).takeWhile isAsciiDigit ≠ [] ∧
    (cs.dropWhile isAsciiAlpha).dropWhile isAsciiDigit = [])

/-! ### Range / GridRange (datarange.py lines 109-196) -/

structure Range where
  startAddress : Int × Int
  endAddress : Int × Int
  deriving DecidableEq, Repr

/-- `Range.__init__` (116-120): both bounds go through `Address(...)`, then
the ordering invariant is checked.  On violation the raised
`InvalidRange(...)` message formats `self.range`, which renders
`self.start.label` and then `self.end.label`; a coordinate below 1 in
either bound makes that rendering raise `InvalidArgumentValue` before the
`InvalidRange` exception is constructed. -/
def rangeInit (s e : AddrInput) : Except PyErr Range :=
  (addressInit s).bind fun a =>
    (addressInit e).bind fun b =>
      if a.1 > b.1 ∨ a.2 > b.2 then
        (valueAsLabel a).bind fun _ =>
          (valueAsLabel b).bind fun _ => .error .invalidRange
      else .ok ⟨a, b⟩

/-- `Range.change_range` (137-140): assigns both bounds through
`Address(...)` with NO ordering check; returns the mutated object. -/
def changeRange (_r : Range) (s e : AddrInput) : Except PyErr Range :=
  (addressInit s).bind fun a =>
    (addressInit e).bind fun b => .ok ⟨a, b⟩

/-- A `GridRange`: a `Range` plus the worksheet it is bound to, the
worksheet represented by its id (the only attribute the embedded methods
read). -/
structure GridRange where
  sheetId : Int
  range : Range
  deriving DecidableEq, Repr

/-- `GridRange.__init__` (165-167). -/
def gridRangeInit (wsId : Int) (s e : AddrInput) : Except PyErr GridRange :=
  (rangeInit s e).map fun r => ⟨wsId, r⟩

/-- The Google Sheets API grid-range JSON object. -/
structure GridJson where
  sheetId : Int
  startRowIndex : Int
  endRowIndex : Int
  startColumnIndex : Int
  endColumnIndex : Int
  deriving DecidableEq, Repr

/-- `GridRange.to_json` (184-192): `startRowIndex = self.start[0]`,
`endRowIndex = self.end[0] + 1`, and the same for columns. -/
def gridRangeToJson (g : GridRange) : GridJson :=
  ⟨g.sheetId, g.range.startAddress.1, g.range.endAddress.1 + 1,
   g.range.startAddress.2, g.range.endAddress.2 + 1⟩

/-- `GridRange.from_json` (160-163): builds
`cls(worksheet, Address((startRowIndex, endRowIndex)), Address((startColumnIndex, endColumnIndex)))`.
The `sheetId` field of the JSON is ignored; the worksheet's own id is
used. -/
def gridRangeFromJson (wsId : Int)
    (_sheetId startRowIndex endRowIndex startColumnIndex endColumnIndex : Int) :
    Except PyErr GridRange :=
  (addressInit (.coords (startRowIndex, endRowIndex))).bind fun a =>
    (addressInit (.coords (startColumnIndex, endColumnIndex))).bind fun b =>
      gridRangeInit wsId (.addr a) (.addr b)

/-- `DataRange._get_gridrange` (498-505): 0-indexed, half-open projection. -/
def getGridrange (wsId : Int) (r : Range) : GridJson :=
  ⟨wsId, r.startAddress.1 - 1, r.endAddress.1,
   r.startAddress.2 - 1, r.endAddress.2⟩

/-! ### Positional indexing (ValueRange.__getitem__ line 288-289,
DataRange.__getitem__ lines 507-514) -/

/-- Python list indexing `l[i]`: negative indices count from the end;
anything else out of range is an `IndexError` (modelled as `none`). -/
def pyListGet {α : Type} (l : List α) (i : Int) : Option α :=
  if 0 ≤ i then l.get? i.toNat
  else if 0 ≤ i + l.length then l.get? (i + l.length).toNat
  else none

/-- `ValueRange.__getitem__`: `return self._values[item]` — a bare list
access, so an out-of-range position raises Python's `IndexError`. -/
def valueRangeGetItem {α : Type} (values : List (List α)) (item : Int) :
    Except PyErr (List α) :=
  match pyListGet values item with
  | some row => .ok row
  | none => .error .indexError

/-- `DataRange.__getitem__` for an integer `item`: when the first cached row
is empty the data is re-fetched from the remote first (the freshly fetched
matrix is the `fetched` parameter); an `IndexError` from the list access is
translated to `CellNotFound`.  An empty matrix makes `self._data[0]` itself
raise `IndexError`. -/
def dataRangeGetItem {α : Type} :
    (data fetched : List (List α)) → (item : Int) → Except PyErr (List α)
  | [], _, _ => .error .indexError
  | row0 :: rest, fetched, item =>
    match pyListGet (if row0.length = 0 then fetched else row0 :: rest) item with
    | some row => .ok row
    | none => .error .cellNotFound

/-! ### DataRange.__init__ as reached from NamedRange / ProtectedRange

`NamedRange.__init__` (line 555) and `ProtectedRange.__init__` (line 631)
both call `super().__init__(worksheet, start, end)` positionally against
the signature `DataRange.__init__(self, start=None, end=None,
worksheet=None, ...)` (line 308).  DataRange's `start` parameter therefore
receives the caller's Worksheet object, `end` receives the caller's
`start`, and `worksheet` receives the caller's `end`. -/

/-- `DataRange.__init__` (lines 308-340) as invoked from the two
subclasses.  With `namedjson`/`protectedjson` left `None`, the body runs
`Address(start)` (line 322) — which raises `IncorrectCellLabel` when
`start` is the Worksheet object — then `Address(end)` (line 323), then
`self.fetch()` (line 331), which calls `self._worksheet.get_values(...)`
on what is actually one of the caller's address arguments and raises
`AttributeError` (and even past that, line 339 `ProtectedRange()` would
raise `TypeError`).  No call through the two subclasses returns normally,
which the result type `Except PyErr Empty` records. -/
def dataRangeInit (start end_ _worksheet : AddrInput) : Except PyErr Empty :=
  (addressInit start).bind fun _ =>
    (addressInit end_).bind fun _ =>
      .error .attributeError

/-! ### ProtectedRange (datarange.py lines 617-740) -/

/-- The target part of an `addProtectedRange` request: exactly one of an
explicit grid range, an unbounded range with unprotected carve-outs, or a
backing named range id. -/
inductive PRTarget where
  | explicitRange (g : GridJson)
  | unbounded (unprotected : List GridRange)
  | named (namedRangeId : Int)
  deriving DecidableEq, Repr

structure AddProtectedReq where
  description : String
  warningOnly : Bool
  editors : Option (List String)
  target : PRTarget
  deriving DecidableEq, Repr

/-- The fields of a `ProtectedRange` that its own methods read or write
(lines 632-646: `_id`, `_description`, `_warning_only`,
`_requesting_user_can_edit`, `_named_range`, `_unprotected_ranges`,
`_editors`). -/
structure PRState where
  id : Option Int
  description : String
  warningOnly : Bool
  requestingUserCanEdit : Bool
  namedRange : Option Int
  unprotectedRanges : Option (List GridRange)
  editors : Option (List String)
  deriving DecidableEq, Repr

/-- `ProtectedRange._add_protected_range` (721-740): the request target is
chosen by an if/elif/else chain — `unprotectedRanges` first (with
`range: {}`), then the backing named range, and the explicit span only as
the fallback.  The fallback evaluates `self.grid_range`, which resolves
through `GridRange.to_json` reading `self._sheet` — an attribute
`DataRange.__init__` never sets — so it raises `AttributeError`. -/
def addProtectedRange (s : PRState) : Except PyErr AddProtectedReq :=
  match s.unprotectedRanges with
  | some u =>
    .ok { description := s.description, warningOnly := s.warningOnly,
          editors := s.editors, target := .unbounded u }
  | none =>
    match s.namedRange with
    | some nid =>
      .ok { description := s.description, warningOnly := s.warningOnly,
            editors := s.editors, target := .named nid }
    | none => .error .attributeError

/-- `ProtectedRange.__init__` (630-649).  Line 631 delegates to
`DataRange.__init__` through the scrambled positional call (see
`dataRangeInit`), which raises — `IncorrectCellLabel` for a real Worksheet
argument — before any of the keyword handling (632-647) or
`_add_protected_range` (649) can run, for EVERY combination of target
modes.  The first component is the list of requests sent before the
exception: always empty. -/
def protectedRangeInit (worksheet start end_ : AddrInput)
    (protectedRangeId : Option Int) (description : String)
    (warningOnly requestingUserCanEdit : Bool) (namedRangeId : Option Int)
    (registryIds : List Int) (unprotectedRanges : Option (List GridJson))
    (editors : Option (List String)) :
    List AddProtectedReq × Except PyErr PRState :=
  match dataRangeInit worksheet start end_ with
  | .error e => ([], .error e)
  | .ok x => x.elim

/-- `ProtectedRange.editable` (656-658). -/
def editable (s : PRState) : Bool := s.requestingUserCanEdit

/-- `ProtectedRange.editors` getter (694-699). -/
def editorsGet (s : PRState) : Except PyErr (Option (List String)) :=
  if editable s then .ok s.editors else .error .noPermission

/-- `ProtectedRange.editors` setter (701-706). -/
def editorsSet (s : PRState) (value : List String) : Except PyErr PRState :=
  if editable s then .ok { s with editors := some value }
  else .error .noPermission

/-! ### NamedRange (datarange.py lines 528-614) -/

/-- The local fields `NamedRange.__init__` would assign (lines 556-557). -/
structure NRState where
  id : Option String
  name : String
  deriving DecidableEq, Repr

/-- The batch-request envelopes of the NamedRange lifecycle. -/
inductive NRRequest where
  | addNamedRange (name : String) (range : GridJson)
  | updateNamedRange (namedRangeId : Option String) (name : String) (range : GridJson)
  | deleteNamedRange (namedRangeId : Option String)
  deriving DecidableEq, Repr

/-- `NamedRange.__init__` (554-559).  Line 555 delegates to
`DataRange.__init__` through the scrambled positional call (see
`dataRangeInit`), which raises — `IncorrectCellLabel` for a real Worksheet
argument — before `self._name = name`, `self._id = named_range_id` or
`_add_named_range` can run: no `addNamedRange` request is ever issued and
no id is ever stored.  (Even on a hypothetical surviving path,
`_add_named_range`'s request body evaluates `self.grid_range`, which calls
the `NamedRange.to_json` override, which embeds `self.grid_range` again —
infinite recursion.)  The first component is the list of requests sent
before the exception: always empty. -/
def namedRangeInit (name : String) (worksheet start end_ : AddrInput)
    (namedRangeId : Option String) : List NRRequest × Except PyErr NRState :=
  match dataRangeInit worksheet start end_ with
  | .error e => ([], .error e)
  | .ok x => x.elim

/-! ### Arithmetic of the bijective base-26 / decimal digit lists -/

theorem digitsVal_append (b : Nat) (xs : List Nat) (d : Nat) :
    digitsVal b (xs ++ [d]) = digitsVal b xs * b + d := by
  induction xs with
  | nil => simp [digitsVal]
  | cons x xs ih =>
    simp only [List.cons_append, digitsVal, ih, List.append_eq,
      List.length_append, List.length_cons, List.length_nil, pow_succ]
    ring

theorem colDigitsAux_val (fuel : Nat) : ∀ n, n ≤ fuel →
    digitsVal 26 (colDigitsAux fuel n) = n := by
  induction fuel with
  | zero =>
    intro n hn
    interval_cases n
    simp [colDigitsAux, digitsVal]
  | succ fuel ih =>
    intro n hn
    match n with
    | 0 => simp [colDigitsAux, digitsVal]
    | k + 1 =>
      have hdiv : (k + 1) / 26 < k + 1 := Nat.div_lt_self (Nat.succ_pos k) (by omega)
      have hmod := Nat.div_add_mod (k + 1) 26
      rw [colDigitsAux]
      by_cases h : (k + 1) % 26 = 0
      · rw [if_pos h, if_pos h, digitsVal_append, ih ((k + 1) / 26 - 1) (by omega)]
        omega
      · rw [if_neg h, if_neg h, digitsVal_append, ih ((k + 1) / 26) (by omega)]
        omega

theorem colDigits_val (n : Nat) : digitsVal 26 (colDigits n) = n :=
  colDigitsAux_val n n le_rfl

theorem decDigitsAux_val (fuel : Nat) : ∀ n, n ≤ fuel →
    digitsVal 10 (decDigitsAux fuel n) = n := by
  induction fuel with
  | zero =>
    intro n hn
    interval_cases n
    simp [decDigitsAux, digitsVal]
  | succ fuel ih =>
    intro n hn
    match n with
    | 0 => simp [decDigitsAux, digitsVal]
    | k + 1 =>
      have hdiv : (k + 1) / 10 < k + 1 := Nat.div_lt_self (Nat.succ_pos k) (by omega)
      have hmod := Nat.div_add_mod (k + 1) 10
      rw [decDigitsAux, digitsVal_append, ih ((k + 1) / 10) (by omega)]
      omega

theorem decDigits_val (n : Nat) : digitsVal 10 (decDigits n) = n :=
  decDigitsAux_val n n le_rfl

theorem colDigitsAux_mem (fuel : Nat) : ∀ n m, m ∈ colDigitsAux fuel n →
    1 ≤ m ∧ m ≤ 26 := by
  induction fuel with
  | zero => intro n m hm; simp [colDigitsAux] at hm
  | succ fuel ih =>
    intro n m hm
    match n with
    | 0 => simp [colDigitsAux] at hm
    | k + 1 =>
      rw [colDigitsAux] at hm
      rcases List.mem_append.1 hm with h | h
      · by_cases hz : (k + 1) % 26 = 0
        · exact ih _ _ (by rwa [if_pos hz] at h)
        · exact ih _ _ (by rwa [if_neg hz] at h)
      · have hmod : (k + 1) % 26 < 26 := Nat.mod_lt _ (by omega)
        by_cases hz : (k + 1) % 26 = 0
        · rw [if_pos hz] at h; simp at h; omega
        · rw [if_neg hz] at h; simp at h; omega

theorem decDigitsAux_mem (fuel : Nat) : ∀ n m, m ∈ decDigitsAux fuel n →
    m ≤ 9 := by
  induction fuel with
  | zero => intro n m hm; simp [decDigitsAux] at hm
  | succ fuel ih =>
    intro n m hm
    match n with
    | 0 => simp [decDigitsAux] at hm
    | k + 1 =>
      rw [decDigitsAux] at hm
      rcases List.mem_append.1 hm with h | h
      · exact ih _ _ h
      · have hmod : (k + 1) % 10 < 10 := Nat.mod_lt _ (by omega)
        simp at h; omega

theorem colDigits_ne_nil {n : Nat} (hn : n ≠ 0) : colDigits n ≠ [] := by
  unfold colDigits
  match n, hn with
  | k + 1, _ => rw [colDigitsAux]; simp

theorem decDigits_ne_nil {n : Nat} (hn : n ≠ 0) : decDigits n ≠ [] := by
  unfold decDigits
  match n, hn with
  | k + 1, _ => rw [decDigitsAux]; simp

/-! ### Character-level facts (all digits involved are small, so `decide`
settles them) -/

theorem letterChar_facts : ∀ m, m < 27 → 1 ≤ m →
    (letterChar m).toNat = 64 + m ∧ isAsciiAlpha (letterChar m) = true ∧
    isAsciiDigit (letterChar m) = false ∧ upperOrd (letterChar m) = 64 + m := by
  decide

theorem decChar_facts : ∀ d, d < 10 →
    (decChar d).toNat = 48 + d ∧ isAsciiDigit (decChar d) = true ∧
    isAsciiAlpha (decChar d) = false := by
  decide

theorem colFromLetters_map (ds : List Nat) (h : ∀ m ∈ ds, 1 ≤ m ∧ m ≤ 26) :
    colFromLetters (ds.map letterChar) = digitsVal 26 ds := by
  induction ds with
  | nil => rfl
  | cons d ds ih =>
    have hd := h d (by simp)
    have hfacts := letterChar_facts d (by omega) hd.1
    simp only [List.map_cons, colFromLetters, digitsVal, List.length_map,
      hfacts.2.2.2, Nat.add_sub_cancel_left, ih fun m hm => h m (by simp [hm])]

theorem rowFromDigits_map (ds : List Nat) (h : ∀ m ∈ ds, m ≤ 9) :
    rowFromDigits (ds.map decChar) = digitsVal 10 ds := by
  induction ds with
  | nil => rfl
  | cons d ds ih =>
    have hfacts := decChar_facts d (by have := h d (by simp); omega)
    simp only [List.map_cons, rowFromDigits, digitsVal, List.length_map,
      hfacts.1, Nat.add_sub_cancel_left, ih fun m hm => h m (by simp [hm])]

/-! ### takeWhile / dropWhile over a letters-then-digits split -/

theorem takeWhile_append_of_all {α : Type} {p : α → Bool} {xs : List α}
    (h : ∀ x ∈ xs, p x = true) (ys : List α) :
    (xs ++ ys).takeWhile p = xs ++ ys.takeWhile p := by
  induction xs with
  | nil => simp
  | cons x xs ih =>
    simp only [List.cons_append,
      List.takeWhile_cons_of_pos (h x (by simp)), List.cons.injEq, true_and]
    exact ih fun a ha => h a (by simp [ha])

theorem dropWhile_append_of_all {α : Type} {p : α → Bool} {xs : List α}
    (h : ∀ x ∈ xs, p x = true) (ys : List α) :
    (xs ++ ys).dropWhile p = ys.dropWhile p := by
  induction xs with
  | nil => simp
  | cons x xs ih =>
    simp only [List.cons_append, List.dropWhile_cons_of_pos (h x (by simp))]
    exact ih fun a ha => h a (by simp [ha])

theorem mem_takeWhile_pred {α : Type} {p : α → Bool} :
    ∀ {l : List α} {x : α}, x ∈ l.takeWhile p → p x = true := by
  intro l
  induction l with
  | nil => intro x hx; simp at hx
  | cons a l ih =>
    intro x hx
    by_cases h : p a
    · rw [List.takeWhile_cons_of_pos h] at hx
      rcases List.mem_cons.1 hx with rfl | hx
      · exact h
      · exact ih hx
    · rw [List.takeWhile_cons_of_neg h] at hx; simp at hx

theorem takeWhile_all_eq_self {α : Type} {p : α → Bool} {xs : List α}
    (h : ∀ x ∈ xs, p x = true) : xs.takeWhile p = xs := by
  simpa using takeWhile_append_of_all h []

/-! ### The label codec round trip -/

theorem letters_all_alpha (n : Nat) :
    ∀ c ∈ (colDigits n).map letterChar, isAsciiAlpha c = true := by
  intro c hcmem
  rcases List.mem_map.1 hcmem with ⟨m, hm, rfl⟩
  have hb := colDigitsAux_mem n n m hm
  exact (letterChar_facts m (by omega) hb.1).2.1

theorem digits_all_digit (n : Nat) :
    ∀ c ∈ (decDigits n).map decChar, isAsciiDigit c = true := by
  intro c hcmem
  rcases List.mem_map.1 hcmem with ⟨m, hm, rfl⟩
  have hb := decDigitsAux_mem n n m hm
  exact (decChar_facts m (by omega)).2.1

theorem digits_all_not_alpha (n : Nat) :
    ∀ c ∈ (decDigits n).map decChar, isAsciiAlpha c = false := by
  intro c hcmem
  rcases List.mem_map.1 hcmem with ⟨m, hm, rfl⟩
  have hb := decDigitsAux_mem n n m hm
  exact (decChar_facts m (by omega)).2.2

/-- Core round trip: parsing the concatenation of a rendered column label
and a rendered row number recovers the coordinates. -/
theorem labelToCoordList_render (r c : Nat) (hr : r ≠ 0) (hc : c ≠ 0) :
    labelToCoordList ((colDigits c).map letterChar ++ (decDigits r).map decChar) =
      .ok (Int.ofNat r, Int.ofNat c) := by
  obtain ⟨d0, Dtl, hD⟩ : ∃ d0 Dtl, (decDigits r).map decChar = d0 :: Dtl := by
    cases hE : (decDigits r).map decChar with
    | nil => exact absurd (List.map_eq_nil_iff.1 hE) (decDigits_ne_nil hr)
    | cons a l => exact ⟨a, l, rfl⟩
  have hd0 : isAsciiAlpha d0 = false :=
    digits_all_not_alpha r d0 (by rw [hD]; exact List.mem_cons_self _ _)
  have hletters : ((colDigits c).map letterChar ++ (decDigits r).map decChar).takeWhile
      isAsciiAlpha = (colDigits c).map letterChar := by
    rw [takeWhile_append_of_all (letters_all_alpha c), hD,
      List.takeWhile_cons_of_neg (by simp [hd0]), List.append_nil]
  have hdrop : ((colDigits c).map letterChar ++ (decDigits r).map decChar).dropWhile
      isAsciiAlpha = (decDigits r).map decChar := by
    rw [dropWhile_append_of_all (letters_all_alpha c), hD,
      List.dropWhile_cons_of_neg (by simp [hd0])]
  have hdigits : ((decDigits r).map decChar).takeWhile isAsciiDigit =
      (decDigits r).map decChar :=
    takeWhile_all_eq_self (digits_all_digit r)
  have hLne : (colDigits c).map letterChar ≠ [] := by
    simp [colDigits_ne_nil hc]
  rw [labelToCoordList, hdrop, hdigits, hletters,
    if_neg (by simp [hLne, hD]),
    rowFromDigits_map (decDigits r) (fun m hm => decDigitsAux_mem r r m hm),
    colFromLetters_map (colDigits c) (fun m hm => colDigitsAux_mem c c m hm),
    decDigits_val, colDigits_val]

theorem valueAsLabel_roundtrip (row col : Int) (hr : 1 ≤ row) (hc : 1 ≤ col) :
    (valueAsLabel (row, col)).bind labelToCoordinates = .ok (row, col) := by
  rw [valueAsLabel]
  simp only [if_neg (show ¬ (row, col).1 < 1 by simpa using by omega),
    if_neg (show ¬ (row, col).2 < 1 by simpa using by omega)]
  show labelToCoordList ((colDigits col.toNat).map letterChar ++
    (decDigits row.toNat).map decChar) = _
  rw [labelToCoordList_render row.toNat col.toNat (by omega) (by omega)]
  have h1 : Int.ofNat row.toNat = row := by
    rw [Int.ofNat_eq_natCast, Int.toNat_of_nonneg (by omega)]
  have h2 : Int.ofNat col.toNat = col := by
    rw [Int.ofNat_eq_natCast, Int.toNat_of_nonneg (by omega)]
  rw [h1, h2]

/-! ### Facts about the parser used by several claims -/

theorem digit_not_alpha {c : Char} (h : isAsciiDigit c = true) :
    isAsciiAlpha c = false := by
  simp only [isAsciiDigit, Bool.and_eq_true, decide_eq_true_eq] at h
  simp only [isAsciiAlpha, Bool.or_eq_false_iff, Bool.and_eq_false_iff,
    decide_eq_false_iff_not, not_le]
  omega

theorem upperOrd_bounds {c : Char} (h : isAsciiAlpha c = true) :
    65 ≤ upperOrd c ∧ upperOrd c ≤ 90 := by
  simp only [isAsciiAlpha, Bool.or_eq_true, Bool.and_eq_true,
    decide_eq_true_eq] at h
  unfold upperOrd
  split
  next h' =>
    simp only [Bool.and_eq_true, decide_eq_true_eq] at h'
    omega
  next h' =>
    simp only [Bool.and_eq_true, decide_eq_true_eq, not_and, not_le] at h'
    omega

theorem colFromLetters_pos {cs : List Char} (hne : cs ≠ [])
    (h : ∀ c ∈ cs, isAsciiAlpha c = true) : 1 ≤ colFromLetters cs := by
  cases cs with
  | nil => exact absurd rfl hne
  | cons c cs =>
    have hb := upperOrd_bounds (h c (by simp))
    have hpos : 0 < (upperOrd c - 64) * 26 ^ cs.length :=
      Nat.mul_pos (by omega) (pow_pos (by omega) _)
    simp only [colFromLetters]
    omega

theorem labelToCoordList_error_iff (cs : List Char) :
    labelToCoordList cs = .error .incorrectCellLabel ↔
      (cs.takeWhile isAsciiAlpha = [] ∨
       (cs.dropWhile isAsciiAlpha).takeWhile isAsciiDigit = []) := by
  unfold labelToCoordList
  split
  next h => exact iff_of_true rfl h
  next h => exact iff_of_false (fun hh => Except.noConfusion hh) h

theorem labelToCoordList_ok_col {cs : List Char} {v : Int × Int}
    (h : labelToCoordList cs = .ok v) : 1 ≤ v.2 := by
  unfold labelToCoordList at h
  split at h
  next => exact absurd h (fun hh => Except.noConfusion hh)
  next hcond =>
    injection h with h'
    have hne : cs.takeWhile isAsciiAlpha ≠ [] := fun hh => hcond (Or.inl hh)
    have hcol := colFromLetters_pos hne (fun c hc => mem_takeWhile_pred hc)
    rw [← h']
    exact Int.ofNat_le.2 hcol

theorem addressInit_addr_ok {v w : Int × Int}
    (h : addressInit (.addr v) = .ok w) : 1 ≤ v.1 ∧ 1 ≤ v.2 ∧ w = v := by
  by_cases h1 : v.1 < 1
  · have hval : valueAsLabel v = .error .invalidArgumentValue := by
      unfold valueAsLabel; rw [if_pos h1]
    simp [addressInit, hval, Except.bind] at h
  · by_cases h2 : v.2 < 1
    · have hval : valueAsLabel v = .error .invalidArgumentValue := by
        unfold valueAsLabel; rw [if_neg h1, if_pos h2]
      simp [addressInit, hval, Except.bind] at h
    · have hrt : addressInit (.addr v) = .ok v := by
        show (valueAsLabel v).bind labelToCoordinates = .ok v
        exact valueAsLabel_roundtrip v.1 v.2 (by omega) (by omega)
      rw [hrt] at h
      injection h with h'
      exact ⟨by omega, by omega, h'.symm⟩

theorem matchesA1AtStart_iff (cs : List Char) :
    (cs.takeWhile isAsciiAlpha = [] ∨
     (cs.dropWhile isAsciiAlpha).takeWhile isAsciiDigit = []) ↔
      ¬ matchesA1AtStart cs := by
  constructor
  · rintro h ⟨L, D, R, rfl, hL, hD, hLa, hDd⟩
    obtain ⟨d0, D', rfl⟩ : ∃ d0 D', D = d0 :: D' := by
      cases D with
      | nil => exact absurd rfl hD
      | cons a l => exact ⟨a, l, rfl⟩
    have hd0 : isAsciiAlpha d0 = false := digit_not_alpha (hDd d0 (by simp))
    rcases h with h | h
    · rw [takeWhile_append_of_all hLa, List.cons_append,
        List.takeWhile_cons_of_neg (by simp [hd0]), List.append_nil] at h
      exact hL h
    · rw [dropWhile_append_of_all hLa, List.cons_append,
        List.dropWhile_cons_of_neg (by simp [hd0]),
        List.takeWhile_cons_of_pos (hDd d0 (by simp))] at h
      simp at h
  · intro h
    by_contra hcond
    push_neg at hcond
    obtain ⟨h1, h2⟩ := hcond
    apply h
    refine ⟨cs.takeWhile isAsciiAlpha,
      (cs.dropWhile isAsciiAlpha).takeWhile isAsciiDigit,
      (cs.dropWhile isAsciiAlpha).dropWhile isAsciiDigit, ?_, h1, h2,
      fun c hc => mem_takeWhile_pred hc, fun c hc => mem_takeWhile_pred hc⟩
    rw [List.takeWhile_append_dropWhile, List.takeWhile_append_dropWhile]

theorem pyListGet_nonneg {α : Type} (l : List α) (i : Int) (h : 0 ≤ i) :
    pyListGet l i = l.get? i.toNat := by
  unfold pyListGet
  rw [if_pos h]

theorem pyListGet_none {α : Type} (l : List α) (i : Int)
    (h : i < -(l.length : Int) ∨ (l.length : Int) ≤ i) : pyListGet l i = none := by
  unfold pyListGet
  split
  next h0 =>
    exact List.get?_eq_none.2 (by omega)
  next h0 =>
    rw [if_neg (by omega)]

/-! ## The claims -/

/-- C1: for every pair of integers row ≥ 1 and column ≥ 1, decoding the A1
label produced by encoding `(row, column)` under the bijective base-26
scheme returns exactly `(row, column)`: `Address((row, column)).label`
parsed back by `_label_to_coordinates` yields `(row, column)`. -/
theorem c1_address_label_roundtrip (row col : Int) (hr : 1 ≤ row) (hc : 1 ≤ col) :
    ((addressInit (.coords (row, col))).bind valueAsLabel).bind labelToCoordinates =
      .ok (row, col) := by
  have h : addressInit (.coords (row, col)) = .ok (row, col) := by
    simp only [addressInit]
    rw [if_neg (by simp only [not_or, not_lt]; omega)]
  rw [h]
  exact valueAsLabel_roundtrip row col hr hc

/-- Witness for C1 at `(row, column) = (100, 52)`, the spec's `AZ100`
example. -/
theorem c1_address_label_roundtrip_witness :
    ((addressInit (.coords (100, 52))).bind valueAsLabel).bind labelToCoordinates =
      .ok (100, 52) :=
  c1_address_label_roundtrip 100 52 (by decide) (by decide)

/-- C5 counterexample: `'A1X'` does not match `[A-Za-z]+[0-9]+` against the
whole string, yet `_label_to_coordinates` accepts it (the `re.match` is
anchored at the start only), returning `(1, 1)` instead of raising
`IncorrectCellLabel`. -/
theorem c5_trailing_characters_accepted :
    labelToCoordinates "A1X" = .ok (1, 1) ∧ wholeA1 "A1X".toList = false :=
  ⟨rfl, by decide⟩

/-- C5 amended: for ASCII labels (where the embedding's `[0-9]` model of
`\d` is exact), construction from a label raises `IncorrectCellLabel` if
and only if the label does not START with a `[A-Za-z]+[0-9]+` prefix (a
non-empty letter run followed by a non-empty digit run); trailing
characters after the digit run are ignored, not rejected.  Non-ASCII
labels can additionally be accepted through Unicode decimal digits in the
row part, which this embedding does not model. -/
theorem c5_label_error_iff (s : String)
    (hascii : ∀ c ∈ s.toList, c.toNat < 128) :
    labelToCoordinates s = .error .incorrectCellLabel ↔
      ¬ matchesA1AtStart s.toList := by
  rw [labelToCoordinates, labelToCoordList_error_iff, matchesA1AtStart_iff]

/-- Witness for C5 (amended) at the repo's own invalid label `'AV'`: the
parser rejects it, so by the equivalence it has no letters-then-digits
prefix. -/
theorem c5_label_error_iff_witness : ¬ matchesA1AtStart "AV".toList :=
  (c5_label_error_iff "AV" (by decide)).1 rfl

/-- C6 counterexample: the label `'A0'` constructs successfully (no
`InvalidArgumentValue`), producing an Address with row 0 < 1. -/
theorem c6_label_A0_accepted :
    addressInit (.label "A0") = .ok (0, 1) ∧ ¬ (1 ≤ (0 : Int)) :=
  ⟨rfl, by decide⟩

/-- C6 amended: tuple inputs with row or column below 1 raise
`InvalidArgumentValue`, and so do Address inputs whose stored row or
column is below 1 (re-rendering the inner label raises); every
successfully constructed Address has column ≥ 1, and tuple- or
Address-constructed ones also have row ≥ 1 — but the label path does not
range-check the row, so a label such as `'A0'` yields an Address with
row 0. -/
theorem c6_lower_bound_amended :
    (∀ v : Int × Int, (v.1 < 1 ∨ v.2 < 1) →
      addressInit (.coords v) = .error .invalidArgumentValue) ∧
    (∀ i v, addressInit i = .ok v → 1 ≤ v.2) ∧
    (∀ v w, addressInit (.coords v) = .ok w → 1 ≤ w.1) ∧
    (∀ v w, addressInit (.addr v) = .ok w → 1 ≤ w.1) ∧
    (∀ v : Int × Int, (v.1 < 1 ∨ v.2 < 1) →
      addressInit (.addr v) = .error .invalidArgumentValue) := by
  refine ⟨?_, ?_, ?_, ?_, ?_⟩
  · intro v hv
    simp [addressInit, if_pos hv]
  · intro i v h
    match i with
    | .label s => exact labelToCoordList_ok_col h
    | .coords v0 =>
      by_cases hc : v0.1 < 1 ∨ v0.2 < 1
      · simp [addressInit, if_pos hc] at h
      · simp only [addressInit, if_neg hc] at h
        injection h with h'
        subst h'
        omega
    | .addr v0 =>
      obtain ⟨-, h2, rfl⟩ := addressInit_addr_ok h
      exact h2
    | .other => exact absurd h (fun hh => Except.noConfusion hh)
  · intro v w h
    by_cases hc : v.1 < 1 ∨ v.2 < 1
    · simp [addressInit, if_pos hc] at h
    · simp only [addressInit, if_neg hc] at h
      injection h with h'
      subst h'
      omega
  · intro v w h
    obtain ⟨h1, -, rfl⟩ := addressInit_addr_ok h
    exact h1
  · intro v hv
    show (valueAsLabel v).bind labelToCoordinates = _
    have hval : valueAsLabel v = .error .invalidArgumentValue := by
      unfold valueAsLabel
      rcases hv with h | h
      · rw [if_pos h]
      · by_cases h1 : v.1 < 1
        · rw [if_pos h1]
        · rw [if_neg h1, if_pos h]
    rw [hval]
    rfl

/-- Witness for the amended C6 at concrete inputs: the tuple `(0, 5)` is
rejected, `'E25'` parses with column 5 ≥ 1, the tuple `(25, 5)` keeps
row 25 ≥ 1, and an Address carrying `(0, 1)` (obtainable from the label
`'A0'`) is rejected when re-wrapped. -/
theorem c6_lower_bound_amended_witness :
    addressInit (.coords (0, 5)) = .error .invalidArgumentValue ∧
    (1 : Int) ≤ (((25 : Int), (5 : Int))).2 ∧
    (1 : Int) ≤ (((25 : Int), (5 : Int))).1 ∧
    addressInit (.addr (0, 1)) = .error .invalidArgumentValue :=
  ⟨c6_lower_bound_amended.1 (0, 5) (by decide),
   c6_lower_bound_amended.2.1 (.label "E25") (25, 5) rfl,
   c6_lower_bound_amended.2.2.1 (25, 5) (25, 5) rfl,
   c6_lower_bound_amended.2.2.2.2 (0, 1) (by decide)⟩

/-- C2: evaluation at the failing input.  For the valid grid-range JSON
`{sheetId: 7, startRowIndex: 1, endRowIndex: 2, startColumnIndex: 1,
endColumnIndex: 3}` on worksheet 7, `from_json` followed by `to_json`
returns `{7, 1, 2, 2, 4}` instead of the input: `from_json` pairs
`(startRowIndex, endRowIndex)` into the start Address and
`(startColumnIndex, endColumnIndex)` into the end Address, and `to_json`
re-reads them as (row, column) pairs, so the round trip is not the
identity. -/
theorem c2_fromJson_toJson_not_identity :
    (gridRangeFromJson 7 7 1 2 1 3).map gridRangeToJson =
      .ok ⟨7, 1, 2, 2, 4⟩ ∧
    (⟨7, 1, 2, 2, 4⟩ : GridJson) ≠ ⟨7, 1, 2, 1, 3⟩ :=
  ⟨rfl, by decide⟩

/-- C3 counterexample: for the sheet-bound range `A5:B10` (start `(5,1)`,
end `(10,2)`) on sheet 0, `GridRange.to_json` returns
`{0, 5, 11, 1, 3}` — not the claimed
`{startRowIndex: 5-1, endRowIndex: 10, startColumnIndex: 1-1,
endColumnIndex: 2}`. -/
theorem c3_toJson_counterexample :
    gridRangeToJson ⟨0, ⟨(5, 1), (10, 2)⟩⟩ = ⟨0, 5, 11, 1, 3⟩ ∧
    gridRangeToJson ⟨0, ⟨(5, 1), (10, 2)⟩⟩ ≠ ⟨0, 5 - 1, 10, 1 - 1, 2⟩ :=
  ⟨rfl, by decide⟩

/-- C3 amended: `DataRange._get_gridrange` produces exactly the claimed
0-indexed half-open JSON `{start.row - 1, end.row, start.column - 1,
end.column}`, while `GridRange.to_json` produces the same four index
fields each shifted up by one (`{start.row, end.row + 1, start.column,
end.column + 1}`). -/
theorem c3_projection_amended (wsId : Int) (r : Range) :
    getGridrange wsId r =
      ⟨wsId, r.startAddress.1 - 1, r.endAddress.1,
       r.startAddress.2 - 1, r.endAddress.2⟩ ∧
    gridRangeToJson ⟨wsId, r⟩ =
      ⟨(getGridrange wsId r).sheetId,
       (getGridrange wsId r).startRowIndex + 1,
       (getGridrange wsId r).endRowIndex + 1,
       (getGridrange wsId r).startColumnIndex + 1,
       (getGridrange wsId r).endColumnIndex + 1⟩ := by
  refine ⟨rfl, ?_⟩
  simp only [gridRangeToJson, getGridrange, GridJson.mk.injEq]
  exact ⟨trivial, by omega, trivial, by omega, trivial⟩

/-- C4 counterexample: a valid `Range('A1','B7')` resized via
`change_range('C5','A1')` yields — without any error — a range whose start
`(5,3)` is after its end `(1,1)` on both axes, violating the invariant the
claim says is maintained at all times. -/
theorem c4_changeRange_counterexample :
    ((rangeInit (.label "A1") (.label "B7")).bind fun r =>
      changeRange r (.label "C5") (.label "A1")) =
      .ok ⟨(5, 3), (1, 1)⟩ ∧ ¬ ((5 : Int) ≤ 1) :=
  ⟨rfl, by decide⟩

/-- C4 amended: the constructor validates the ordering invariant — every
constructed Range satisfies it, and a violating pair raises `InvalidRange`
when both bounds render (all coordinates ≥ 1), or `InvalidArgumentValue`
from rendering the diagnostic message when a bound has a coordinate below
1 — but `change_range` performs no re-validation: it stores whatever
addresses it is given, so a Range violating the invariant can be produced
through `change_range`. -/
theorem c4_range_invariant_amended :
    (∀ s e r, rangeInit s e = .ok r →
      r.startAddress.1 ≤ r.endAddress.1 ∧ r.startAddress.2 ≤ r.endAddress.2) ∧
    (∀ s e a b, addressInit s = .ok a → addressInit e = .ok b →
      (b.1 < a.1 ∨ b.2 < a.2) →
      1 ≤ a.1 → 1 ≤ a.2 → 1 ≤ b.1 → 1 ≤ b.2 →
      rangeInit s e = .error .invalidRange) ∧
    (∀ s e a b, addressInit s = .ok a → addressInit e = .ok b →
      (b.1 < a.1 ∨ b.2 < a.2) →
      (a.1 < 1 ∨ a.2 < 1 ∨ b.1 < 1 ∨ b.2 < 1) →
      rangeInit s e = .error .invalidArgumentValue) ∧
    (∀ r s e a b, addressInit s = .ok a → addressInit e = .ok b →
      changeRange r s e = .ok ⟨a, b⟩) := by
  refine ⟨?_, ?_, ?_, ?_⟩
  · intro s e r h
    unfold rangeInit at h
    cases h1 : addressInit s with
    | error err => simp [h1, Except.bind] at h
    | ok a =>
      cases h2 : addressInit e with
      | error err => simp [h1, h2, Except.bind] at h
      | ok b =>
        simp only [h1, h2, Except.bind] at h
        split at h
        · exfalso
          cases hva : valueAsLabel a <;> cases hvb : valueAsLabel b <;>
            simp [hva, hvb, Except.bind] at h
        · next hord =>
            injection h with h'
            subst h'
            simp only [not_or, not_lt] at hord
            exact ⟨hord.1, hord.2⟩
  · intro s e a b h1 h2 hord ha1 ha2 hb1 hb2
    unfold rangeInit
    rw [h1]
    simp only [Except.bind]
    rw [h2]
    simp only [Except.bind]
    rw [if_pos (by omega)]
    obtain ⟨la, hva⟩ : ∃ la, valueAsLabel a = .ok la :=
      ⟨_, by unfold valueAsLabel; rw [if_neg (by omega), if_neg (by omega)]⟩
    obtain ⟨lb, hvb⟩ : ∃ lb, valueAsLabel b = .ok lb :=
      ⟨_, by unfold valueAsLabel; rw [if_neg (by omega), if_neg (by omega)]⟩
    rw [hva]
    simp only [Except.bind]
    rw [hvb]
  · intro s e a b h1 h2 hord hlow
    unfold rangeInit
    rw [h1]
    simp only [Except.bind]
    rw [h2]
    simp only [Except.bind]
    rw [if_pos (by omega)]
    by_cases ha : a.1 < 1 ∨ a.2 < 1
    · have hva : valueAsLabel a = .error .invalidArgumentValue := by
        unfold valueAsLabel
        rcases ha with h | h
        · rw [if_pos h]
        · by_cases h1' : a.1 < 1
          · rw [if_pos h1']
          · rw [if_neg h1', if_pos h]
      rw [hva]
    · obtain ⟨la, hva⟩ : ∃ la, valueAsLabel a = .ok la :=
        ⟨_, by unfold valueAsLabel; rw [if_neg (by omega), if_neg (by omega)]⟩
      rw [hva]
      simp only [Except.bind]
      have hvb : valueAsLabel b = .error .invalidArgumentValue := by
        unfold valueAsLabel
        by_cases hb1 : b.1 < 1
        · rw [if_pos hb1]
        · rw [if_neg hb1, if_pos (by omega)]
      rw [hvb]
  · intro r s e a b h1 h2
    unfold changeRange
    rw [h1]
    simp only [Except.bind]
    rw [h2]

/-- Witness for the amended C4: the invariant holds for `Range('A1','B7')`;
`Range('C5','A1')` raises `InvalidRange`; `Range('B1','A0')` raises
`InvalidArgumentValue` (rendering the end label hits row 0); and
`change_range('C5','A1')` succeeds, producing the inverted bounds. -/
theorem c4_range_invariant_amended_witness :
    (((1 : Int), (1 : Int)).1 ≤ ((7 : Int), (2 : Int)).1 ∧
      ((1 : Int), (1 : Int)).2 ≤ ((7 : Int), (2 : Int)).2) ∧
    rangeInit (.label "C5") (.label "A1") = .error .invalidRange ∧
    rangeInit (.label "B1") (.label "A0") = .error .invalidArgumentValue ∧
    changeRange ⟨(1, 1), (7, 2)⟩ (.label "C5") (.label "A1") =
      .ok ⟨(5, 3), (1, 1)⟩ :=
  ⟨c4_range_invariant_amended.1 (.label "A1") (.label "B7") ⟨(1, 1), (7, 2)⟩ rfl,
   c4_range_invariant_amended.2.1 (.label "C5") (.label "A1") (5, 3) (1, 1)
     rfl rfl (by decide) (by decide) (by decide) (by decide) (by decide),
   c4_range_invariant_amended.2.2.1 (.label "B1") (.label "A0") (1, 2) (0, 1)
     rfl rfl (by decide) (by decide),
   c4_range_invariant_amended.2.2.2 ⟨(1, 1), (7, 2)⟩ (.label "C5") (.label "A1")
     (5, 3) (1, 1) rfl rfl⟩

/-- C7: constructing a ProtectedRange — with any combination of target
modes populated, and in particular with more than one — is rejected at
construction time with an error, before any request is sent to the
remote.  The rejection is not a mutual-exclusion validation: line 631's
positional `super().__init__(worksheet, start, end)` binds the Worksheet
object to DataRange's `start` parameter, and `Address(worksheet)` raises
`IncorrectCellLabel` (lines 47-49) before the keyword handling or
`_add_protected_range` can run, for single-mode constructions just the
same.  The request log is empty: nothing reaches the remote. -/
theorem c7_construction_rejected_before_request
    (start end_ : AddrInput) (protectedRangeId : Option Int)
    (description : String) (warningOnly requestingUserCanEdit : Bool)
    (namedRangeId : Option Int) (registryIds : List Int)
    (unprotectedRanges : Option (List GridJson))
    (editors : Option (List String)) :
    protectedRangeInit .other start end_ protectedRangeId description
      warningOnly requestingUserCanEdit namedRangeId registryIds
      unprotectedRanges editors = ([], .error .incorrectCellLabel) := rfl

/-- C8: reading or writing `editors` raises `NoPermission` exactly when
`requestingUserCanEdit` is false (the gate is re-checked on every access),
and when it is true, writing a list of editors and then reading returns
that same list. -/
theorem c8_editors_gate (s : PRState) :
    ((editorsGet s = .error .noPermission) ↔ s.requestingUserCanEdit = false) ∧
    (∀ v, (editorsSet s v = .error .noPermission) ↔
      s.requestingUserCanEdit = false) ∧
    (∀ v, s.requestingUserCanEdit = true →
      (editorsSet s v).bind editorsGet = .ok (some v)) := by
  refine ⟨?_, ?_, ?_⟩
  · cases hE : s.requestingUserCanEdit <;>
      simp [editorsGet, editable, hE]
  · intro v
    cases hE : s.requestingUserCanEdit <;>
      simp [editorsSet, editable, hE]
  · intro v hE
    simp [editorsSet, editorsGet, editable, hE, Except.bind]

/-- Witness for C8 on a concrete editable ProtectedRange state. -/
theorem c8_editors_gate_witness :
    (editorsSet
      { id := some 1, description := "", warningOnly := false,
        requestingUserCanEdit := true, namedRange := none,
        unprotectedRanges := none, editors := none } ["alice"]).bind editorsGet =
      .ok (some ["alice"]) :=
  (c8_editors_gate _).2.2 ["alice"] rfl

/-- C9 counterexample: on a ValueRange whose cached matrix is `[[0]]`,
indexing position 5 (out of bounds) raises Python's `IndexError` — not
`CellNotFound` as the claim states. -/
theorem c9_valueRange_raises_indexError :
    valueRangeGetItem [[(0 : Int)]] 5 = .error .indexError ∧
    PyErr.indexError ≠ PyErr.cellNotFound :=
  ⟨rfl, by decide⟩

/-- C9 amended: with a loaded matrix, indexing by a non-negative in-bounds
integer returns the corresponding row (or column, under COLUMNS major
dimension) of the cached matrix on both range types; an out-of-bounds
position raises `CellNotFound` on `DataRange.__getitem__` but the bare
`IndexError` on `ValueRange.__getitem__`. -/
theorem c9_positional_indexing_amended :
    (∀ (data : List (List Int)) i row, 0 ≤ i → data.get? i.toNat = some row →
      valueRangeGetItem data i = .ok row) ∧
    (∀ (data fetched : List (List Int)) r0 rest i row, data = r0 :: rest →
      r0 ≠ [] → 0 ≤ i → data.get? i.toNat = some row →
      dataRangeGetItem data fetched i = .ok row) ∧
    (∀ (data : List (List Int)) i,
      (i < -(data.length : Int) ∨ (data.length : Int) ≤ i) →
      valueRangeGetItem data i = .error .indexError) ∧
    (∀ (data fetched : List (List Int)) r0 rest i, data = r0 :: rest →
      r0 ≠ [] → (i < -(data.length : Int) ∨ (data.length : Int) ≤ i) →
      dataRangeGetItem data fetched i = .error .cellNotFound) := by
  refine ⟨?_, ?_, ?_, ?_⟩
  · intro data i row h0 hrow
    unfold valueRangeGetItem
    rw [pyListGet_nonneg data i h0, hrow]
  · intro data fetched r0 rest i row hdata hne h0 hrow
    subst hdata
    have hif : (if r0.length = 0 then fetched else r0 :: rest) = r0 :: rest :=
      if_neg (by simpa using hne)
    simp only [dataRangeGetItem, hif, pyListGet_nonneg _ i h0, hrow]
  · intro data i h
    unfold valueRangeGetItem
    rw [pyListGet_none data i h]
  · intro data fetched r0 rest i hdata hne h
    subst hdata
    have hif : (if r0.length = 0 then fetched else r0 :: rest) = r0 :: rest :=
      if_neg (by simpa using hne)
    simp only [dataRangeGetItem, hif, pyListGet_none _ i h]

/-- Witness for the amended C9 on a concrete one-row matrix. -/
theorem c9_positional_indexing_amended_witness :
    valueRangeGetItem [[(7 : Int)]] 0 = .ok [7] ∧
    dataRangeGetItem [[(7 : Int)]] [] 0 = .ok [7] ∧
    valueRangeGetItem [[(7 : Int)]] 3 = .error .indexError ∧
    dataRangeGetItem [[(7 : Int)]] [] 3 = .error .cellNotFound :=
  ⟨c9_positional_indexing_amended.1 [[7]] 0 [7] (by decide) rfl,
   c9_positional_indexing_amended.2.1 [[7]] [] [7] [] 0 [7] rfl
     (by decide) (by decide) rfl,
   c9_positional_indexing_amended.2.2.1 [[7]] 3 (by decide),
   c9_positional_indexing_amended.2.2.2 [[7]] [] [7] [] 3 rfl (by decide)
     (by decide)⟩

/-- C10 fails on the code: evaluation at the failing input.  Constructing
`NamedRange('test_range', worksheet, 'A1', 'B7')` (no `named_range_id`)
raises `IncorrectCellLabel` from `Address(worksheet)` inside the
positional `super().__init__(worksheet, start, end)` call at line 555,
before `_add_named_range` can run: the request log is empty — no
`addNamedRange` request is issued — and no id is ever stored, contrary to
the claim that the constructor issues the request and stores the
server-returned id before returning. -/
theorem c10_namedrange_init_raises :
    namedRangeInit "test_range" .other (.label "A1") (.label "B7") none =
      ([], .error .incorrectCellLabel) := rfl

end PyG
